import Mathlib

/-!
# Verification of the `Model-training.ipynb` notebook

A shallow embedding of the notebook's own code (the `CustomDataset` class,
`sum_model_layers`, the `CNNLSTMClassifier` module, and the `train_model`,
`evaluate_model` and `test_model` loops), together with theorems settling the
frozen claims about it.

Framework primitives (the pretrained encoders, `nn.Conv1d`, `nn.LSTM`,
autograd) are external to the repository; where a claim needs them they are
modelled abstractly (as function parameters constrained by their documented
shape contracts) or by their documented algebraic behaviour (scaling a scalar
loss scales its gradient by the same factor).  Tensors are modelled as nested
lists of rationals, so every definition is executable.
-/

/-! ## Tensors -/

/-- A 2-d tensor (e.g. a batch of token-id sequences). -/
abbrev Tensor2 : Type := List (List ℚ)

/-- A 3-d tensor (e.g. a hidden-state tensor of shape `(batch, seq, hidden)`). -/
abbrev Tensor3 : Type := List (List (List ℚ))

/-- `t` has shape `(b, s, h)`: `b` matrices, each of `s` rows of length `h`. -/
def HasShape3 (t : Tensor3) (b s h : ℕ) : Prop :=
  t.length = b ∧ ∀ m ∈ t, m.length = s ∧ ∀ r ∈ m, r.length = h

instance (t : Tensor3) (b s h : ℕ) : Decidable (HasShape3 t b s h) := by
  unfold HasShape3
  infer_instance

/-- Element-wise sum of two 3-d tensors (as produced by broadcasting `+`). -/
def addT3 (t u : Tensor3) : Tensor3 :=
  List.zipWith (List.zipWith (List.zipWith (· + ·))) t u

/-- `torch.stack(ts).sum(dim=0)`: element-wise sum of a stack of equally
shaped tensors.  `torch.stack` raises on an empty list, modelled by `none`. -/
def stackSum (ts : List Tensor3) : Option Tensor3 :=
  match ts with
  | [] => none
  | t :: rest => some (rest.foldl addT3 t)

/-- Python's `l[-n:]` slice: the last `n` elements (all of `l` when
`l.length ≤ n`). -/
def lastSlice (n : ℕ) (l : List Tensor3) : List Tensor3 :=
  l.drop (l.length - n)

/-- `t.permute(0, 2, 1)`: swap the last two axes.  Entry `(i, j, k)` of the
result is entry `(i, k, j)` of the input; on a uniform `(b, s, h)` tensor the
result has shape `(b, h, s)`. -/
def permute021 (t : Tensor3) : Tensor3 :=
  t.map (fun m => (List.range (m.headD []).length).map
    (fun j => m.map (fun r => r.getD j 0)))

/-! ## `sum_model_layers` (notebook cell 6) -/

/-- The ways `sum_model_layers` can raise: the explicit `ValueError` of its
`else` branch, or the `RuntimeError` `torch.stack` raises on an empty list of
hidden states. -/
inductive SumLayersError : Type
  | valueError (msg : String)
  | stackEmptyError
deriving DecidableEq, Repr

/-- `sum_model_layers(model_name, hidden_states)`:

```python
if model_name == 'distilbert':
    return torch.stack(hidden_states[-6:]).sum(dim=0)
elif model_name == 'tinybert':
    return torch.stack(hidden_states[-4:]).sum(dim=0)
elif model_name == 'electra':
    return torch.stack(hidden_states[-12:]).sum(dim=0)
else:
    raise ValueError(f"Unsupported model: ...")
``` -/
def sum_model_layers (model_name : String) (hidden_states : List Tensor3) :
    Except SumLayersError Tensor3 :=
  if model_name = "distilbert" then
    match stackSum (lastSlice 6 hidden_states) with
    | some t => .ok t
    | none => .error .stackEmptyError
  else if model_name = "tinybert" then
    match stackSum (lastSlice 4 hidden_states) with
    | some t => .ok t
    | none => .error .stackEmptyError
  else if model_name = "electra" then
    match stackSum (lastSlice 12 hidden_states) with
    | some t => .ok t
    | none => .error .stackEmptyError
  else
    .error (.valueError ("Unsupported model: " ++ model_name))

/-- The three supported encoder names. -/
def supportedModelNames : List String := ["distilbert", "tinybert", "electra"]

/-- Claim C5 helper: whether a `sum_model_layers` result is the `ValueError`. -/
def raisesValueError (r : Except SumLayersError Tensor3) : Prop :=
  ∃ msg, r = .error (.valueError msg)

/-! ## `CNNLSTMClassifier` construction (notebook cell 7)

The `__init__` method stores the encoder and builds the head layers:

```python
self.cnn = nn.Conv1d(in_channels=in_channels, out_channels=cnn_out_channels,
                     kernel_size=3, padding=1)
self.lstm = nn.LSTM(cnn_out_channels, lstm_hidden_dim, batch_first=True)
self.fc = nn.Linear(lstm_hidden_dim, num_classes)
```
-/

/-- Construction arguments of an `nn.Conv1d` layer. -/
structure Conv1dLayer : Type where
  in_channels : ℕ
  out_channels : ℕ
  kernel_size : ℕ
  padding : ℕ
deriving DecidableEq, Repr

/-- Construction arguments of an `nn.LSTM` layer. -/
structure LSTMLayer : Type where
  input_size : ℕ
  hidden_size : ℕ
  batch_first : Bool
deriving DecidableEq, Repr

/-- Construction arguments of an `nn.Linear` layer. -/
structure LinearLayer : Type where
  in_features : ℕ
  out_features : ℕ
deriving DecidableEq, Repr

/-- A pretrained transformer encoder, as the classifier sees it: its
checkpoint name, its `training` flag, and (abstractly) the list of its
parameter tensors, identified by index. -/
structure Encoder : Type where
  checkpoint : String
  training : Bool
  params : List ℕ
deriving DecidableEq, Repr

/-- The `CNNLSTMClassifier` module: the stored encoder plus the three head
layers built by `__init__`. -/
structure CNNLSTMClassifier : Type where
  model_name : String
  bert : Encoder
  cnn : Conv1dLayer
  lstm : LSTMLayer
  fc : LinearLayer
deriving DecidableEq, Repr

/-- `CNNLSTMClassifier.__init__` with all arguments explicit. -/
def CNNLSTMClassifier.init (model_name : String) (bert : Encoder)
    (in_channels cnn_out_channels lstm_hidden_dim num_classes : ℕ) :
    CNNLSTMClassifier :=
  { model_name := model_name
    bert := bert
    cnn := { in_channels := in_channels, out_channels := cnn_out_channels
             kernel_size := 3, padding := 1 }
    lstm := { input_size := cnn_out_channels, hidden_size := lstm_hidden_dim
              batch_first := true }
    fc := { in_features := lstm_hidden_dim, out_features := num_classes } }

/-- `CNNLSTMClassifier(model_name, bert, in_channels)` with the Python
default arguments `cnn_out_channels=64`, `lstm_hidden_dim=64`,
`num_classes=2`. -/
def CNNLSTMClassifier.initDefault (model_name : String) (bert : Encoder)
    (in_channels : ℕ) : CNNLSTMClassifier :=
  CNNLSTMClassifier.init model_name bert in_channels 64 64 2

/-- `model.train()`: puts the module and all its submodules in training
mode (the head layers carry no mode in this model; the encoder does). -/
def CNNLSTMClassifier.trainMode (m : CNNLSTMClassifier) : CNNLSTMClassifier :=
  { m with bert := { m.bert with training := true } }

/-- `model.eval()`: puts the module and all its submodules in eval mode. -/
def CNNLSTMClassifier.evalMode (m : CNNLSTMClassifier) : CNNLSTMClassifier :=
  { m with bert := { m.bert with training := false } }

/-! ## The three notebook classifiers (cells 17, 28, 39)

Each is constructed over its pretrained encoder and put in training mode:
`DB_model = CNNLSTMClassifier("distilbert", distilbert, in_channels=768);
DB_model.train()`, and likewise for the other two.  The encoder's parameter
list is abstract (loaded from the checkpoint), so each model is a function
of it. -/

/-- `DistilBertModel.from_pretrained('distilbert-base-uncased')`. -/
def distilbert (ps : List ℕ) : Encoder :=
  { checkpoint := "distilbert-base-uncased", training := false, params := ps }

/-- `AutoModel.from_pretrained("huawei-noah/TinyBERT_General_4L_312D")`. -/
def tinybert (ps : List ℕ) : Encoder :=
  { checkpoint := "huawei-noah/TinyBERT_General_4L_312D", training := false
    params := ps }

/-- `ElectraModel.from_pretrained('google/electra-small-discriminator')`. -/
def electra (ps : List ℕ) : Encoder :=
  { checkpoint := "google/electra-small-discriminator", training := false
    params := ps }

/-- Cell 17: `CNNLSTMClassifier("distilbert", distilbert, in_channels=768)`
followed by `DB_model.train()`. -/
def DB_model (ps : List ℕ) : CNNLSTMClassifier :=
  (CNNLSTMClassifier.initDefault "distilbert" (distilbert ps) 768).trainMode

/-- Cell 28: `CNNLSTMClassifier("tinybert", tinybert, in_channels=312)`
followed by `TB_model.train()`. -/
def TB_model (ps : List ℕ) : CNNLSTMClassifier :=
  (CNNLSTMClassifier.initDefault "tinybert" (tinybert ps) 312).trainMode

/-- Cell 39: `CNNLSTMClassifier("electra", electra, in_channels=256)`
followed by `EL_model.train()`. -/
def EL_model (ps : List ℕ) : CNNLSTMClassifier :=
  (CNNLSTMClassifier.initDefault "electra" (electra ps) 256).trainMode

/-- The head construction parameters of a classifier: everything `__init__`
builds on top of the encoder, except the conv layer's `in_channels` (which
is the encoder's hidden size and so differs per encoder). -/
def CNNLSTMClassifier.headSpec (m : CNNLSTMClassifier) :
    ℕ × ℕ × ℕ × ℕ × Bool × ℕ × ℕ :=
  (m.cnn.out_channels, m.cnn.kernel_size, m.cnn.padding,
   m.lstm.hidden_size, m.lstm.batch_first, m.fc.in_features,
   m.fc.out_features)

/-! ## Parameters, `AdamW`, and gradient tracking (claim C2)

`nn.Module.parameters()` yields the parameters of every registered
submodule; for a `CNNLSTMClassifier` these are the encoder's parameters
followed by the head layers' own weight and bias tensors. -/

/-- A reference to one parameter tensor of a `CNNLSTMClassifier`. -/
inductive ParamRef : Type
  | bertParam (i : ℕ)
  | cnnWeight
  | cnnBias
  | lstmWeightIh
  | lstmWeightHh
  | lstmBiasIh
  | lstmBiasHh
  | fcWeight
  | fcBias
deriving DecidableEq, Repr

/-- `model.parameters()`: all parameters of all submodules — the encoder's
followed by the head layers'. -/
def CNNLSTMClassifier.parameters (m : CNNLSTMClassifier) : List ParamRef :=
  m.bert.params.map ParamRef.bertParam ++
    [ParamRef.cnnWeight, ParamRef.cnnBias,
     ParamRef.lstmWeightIh, ParamRef.lstmWeightHh,
     ParamRef.lstmBiasIh, ParamRef.lstmBiasHh,
     ParamRef.fcWeight, ParamRef.fcBias]

/-- An `AdamW` optimizer: the parameters it updates and its learning rate. -/
structure AdamWOpt : Type where
  params : List ParamRef
  lr : ℚ
deriving DecidableEq, Repr

/-- `AdamW(params, lr)`. -/
def AdamW (params : List ParamRef) (lr : ℚ) : AdamWOpt :=
  { params := params, lr := lr }

/-- The notebook's optimizer construction (cells 17, 28, 39):
`AdamW(model.parameters(), lr=2e-4)`. -/
def notebookOptimizer (m : CNNLSTMClassifier) : AdamWOpt :=
  AdamW m.parameters (2 / 10000)

/-- `with torch.set_grad_enabled(mode): body` — the body runs with gradient
tracking set to `mode`, regardless of the ambient mode. -/
def torchSetGradEnabled (mode : Bool) (body : Bool → α) : α :=
  body mode

/-- The gradient-tracking modes the two stages of
`CNNLSTMClassifier.forward` run under, given the ambient autograd mode and
the stored encoder: the encoder call (and the layer summation) runs inside
`with torch.set_grad_enabled(self.bert.training):`; the head (cnn, lstm, fc)
runs outside it, under the ambient mode.  Returns
`(encoder stage mode, head stage mode)`. -/
def CNNLSTMClassifier.forwardGradModes (m : CNNLSTMClassifier)
    (ambientMode : Bool) : Bool × Bool :=
  torchSetGradEnabled m.bert.training (fun encoderMode =>
    (encoderMode, ambientMode))

/-! ## `CNNLSTMClassifier.forward` (notebook cell 7)

```python
def forward(self, input_ids, attention_mask):
    with torch.set_grad_enabled(self.bert.training):
        transformer_output = self.bert(input_ids=input_ids,
                                       attention_mask=attention_mask,
                                       output_hidden_states=True)
        hidden_states = transformer_output.hidden_states
        embeddings = sum_model_layers(self.model_name, hidden_states).permute(0, 2, 1)
    cnn_out = self.cnn(embeddings)
    lstm_out, _ = self.lstm(cnn_out.permute(0, 2, 1))
    logits = self.fc(lstm_out[:, -1, :])
    return logits
```

The encoder, the conv layer and the LSTM are framework primitives with
learned weights; they appear as function parameters (`bertF`, `cnnF`,
`lstmF`), constrained in the theorems by their documented shape contracts.
The final linear layer is spelled out (`linearApply`), since the claims
speak about it directly. -/

/-- Dot product of two equally long vectors. -/
def dotQ (w x : List ℚ) : ℚ := (List.zipWith (· * ·) w x).sum

/-- `nn.Linear` applied to one feature vector: row `i` of the output is
`weight[i] ⬝ x + bias[i]`. -/
def linearApply (weight : List (List ℚ)) (bias : List ℚ) (x : List ℚ) :
    List ℚ :=
  (weight.zip bias).map (fun wb => dotQ wb.1 x + wb.2)

/-- The `embeddings` intermediate of `forward`:
`sum_model_layers(self.model_name, hidden_states).permute(0, 2, 1)`. -/
def CNNLSTMClassifier.forwardEmbeddings (model_name : String)
    (hidden_states : List Tensor3) : Except SumLayersError Tensor3 :=
  (sum_model_layers model_name hidden_states).map permute021

/-- `CNNLSTMClassifier.forward`.  `bertF` is the encoder call (returning
`hidden_states`), `cnnF` the conv layer, `lstmF` the LSTM (returning the
full output sequence `lstm_out`); `fcWeight`/`fcBias` are the final linear
layer's parameters.  `lstm_out[:, -1, :]` selects each batch element's last
time step. -/
def CNNLSTMClassifier.forwardRun (model_name : String)
    (bertF : Tensor2 → Tensor2 → List Tensor3)
    (cnnF : Tensor3 → Tensor3) (lstmF : Tensor3 → Tensor3)
    (fcWeight : List (List ℚ)) (fcBias : List ℚ)
    (input_ids attention_mask : Tensor2) :
    Except SumLayersError (List (List ℚ)) := do
  let hidden_states := bertF input_ids attention_mask
  let embeddings ← CNNLSTMClassifier.forwardEmbeddings model_name hidden_states
  let cnn_out := cnnF embeddings
  let lstm_out := lstmF (permute021 cnn_out)
  pure (lstm_out.map (fun seqOut => linearApply fcWeight fcBias
    (seqOut.getLastD [])))

/-! ### Concrete layer stubs used by the claim C3 witness -/

/-- Concrete encoder stub for the C3 witness: one `(1, 1, 1)` hidden-state
tensor. -/
def wBertF : Tensor2 → Tensor2 → List Tensor3 := fun _ _ => [[[[5]]]]

/-- Concrete conv stub for the C3 witness: constant `(1, 64, 1)` output. -/
def wCnnF : Tensor3 → Tensor3 := fun _ => [List.replicate 64 [0]]

/-- Concrete LSTM stub for the C3 witness: constant `(1, 1, 64)` output. -/
def wLstmF : Tensor3 → Tensor3 := fun _ => [[List.replicate 64 0]]

/-- Concrete final-layer weights for the C3 witness. -/
def wFcWeight : List (List ℚ) := [List.replicate 64 1, List.replicate 64 0]

/-! ## The pooled hidden states are an element-wise sum (claim C4) -/

/-- Entry `(i, j, k)` of a 3-d tensor (0 outside the tensor). -/
def entry3 (t : Tensor3) (i j k : ℕ) : ℚ :=
  ((t.getD i []).getD j []).getD k 0

/-- Modelled from the spec's words: the element-wise sum of a list of
`(b, s, h)`-shaped tensors — the tensor whose entry `(i, j, k)` is the sum
of the entries `(i, j, k)` across the list. -/
def specElementwiseSum (b s h : ℕ) (ts : List Tensor3) : Tensor3 :=
  (List.range b).map (fun i => (List.range s).map (fun j =>
    (List.range h).map (fun k => (ts.map (fun t => entry3 t i j k)).sum)))

/-! ## `train_model` (notebook cell 10)

```python
def train_model(model, dataloader, criterion, optimizer, num_epochs=1,
                accumulation_steps=10, device='cuda'):
    optimizer.zero_grad()
    for epoch in range(num_epochs):
        total_loss = 0
        for i, batches in enumerate(tqdm(dataloader)):
            ...
            outputs = model(input_ids, attention_mask)
            loss = criterion(outputs, labels)
            loss = loss / accumulation_steps
            loss.backward()
            total_loss += loss.item() * accumulation_steps
            if ((i + 1) % accumulation_steps == 0) or (i+1 == len(dataloader)):
                optimizer.step()
                optimizer.zero_grad()
        avg_loss = total_loss / len(dataloader)
    return model
```

The model, criterion and autograd are external; what the claims need of
them is that each mini-batch `i` yields a scalar loss `lossᵢ` and a
gradient `gradᵢ` of that loss with respect to the parameters (summarised
as one rational), and that backward on the scaled loss `lossᵢ / a` adds
`gradᵢ / a` to the gradient buffer (gradients are linear in the loss and
accumulate over `backward` calls until `zero_grad`).  The loop itself —
scaling, accumulation windows, step/zero placement, loss bookkeeping — is
the repository's code and is embedded exactly. -/

/-- What one mini-batch contributes: the value of
`criterion(model(batch), labels)` and the gradient of that (unscaled)
loss. -/
structure TrainBatchData : Type where
  loss : ℚ
  grad : ℚ
deriving DecidableEq, Repr

/-- Observable optimizer/autograd events of the training loop, in program
order. -/
inductive TrainEvent : Type
  | backward (g : ℚ)
  | step (applied : ℚ)
  | zeroGrad
deriving DecidableEq, Repr

/-- Loop state: the autograd gradient buffer, the running `total_loss`, and
the event trace so far. -/
structure TrainState : Type where
  accGrad : ℚ
  totalLoss : ℚ
  trace : List TrainEvent
deriving DecidableEq, Repr

/-- One iteration of the inner loop of `train_model`, at `enumerate` index
`i` over a dataloader of `n` batches. -/
def processBatch (accumulation_steps n i : ℕ) (st : TrainState)
    (batch : TrainBatchData) : TrainState :=
  let loss := batch.loss / (accumulation_steps : ℚ)
  let g := batch.grad / (accumulation_steps : ℚ)
  let acc := st.accGrad + g
  let total := st.totalLoss + loss * (accumulation_steps : ℚ)
  if (i + 1) % accumulation_steps == 0 || i + 1 == n then
    { accGrad := 0, totalLoss := total
      trace := st.trace ++ [.backward g, .step acc, .zeroGrad] }
  else
    { accGrad := acc, totalLoss := total, trace := st.trace ++ [.backward g] }

/-- The inner loop of `train_model` from `enumerate` index `i` on. -/
def runBatches (a n : ℕ) : TrainState → ℕ → List TrainBatchData → TrainState
  | st, _, [] => st
  | st, i, batch :: rest => runBatches a n (processBatch a n i st batch) (i + 1) rest

/-- One epoch of `train_model`.  The gradient buffer is zero on entry: the
first epoch follows the initial `optimizer.zero_grad()`, and every later
epoch follows the step/zero the previous epoch performed after its last
batch. -/
def trainEpoch (a : ℕ) (batches : List TrainBatchData) : TrainState :=
  runBatches a batches.length { accGrad := 0, totalLoss := 0, trace := [] } 0 batches

/-- `train_model`: the per-epoch loop states (`total_loss` is reset each
epoch, so under the abstraction every epoch runs identically). -/
def train_model (num_epochs a : ℕ) (batches : List TrainBatchData) :
    List TrainState :=
  (List.range num_epochs).map (fun _ => trainEpoch a batches)

/-- The per-epoch `avg_loss = total_loss / len(dataloader)`. -/
def avg_loss (a : ℕ) (batches : List TrainBatchData) : ℚ :=
  (trainEpoch a batches).totalLoss / (batches.length : ℚ)

/-- The condition under which the loop takes an optimizer step after the
batch at `enumerate` index `i` (1-based index `i + 1`):
`((i + 1) % accumulation_steps == 0) or (i + 1 == len(dataloader))`. -/
def stepCondition (a n i : ℕ) : Bool :=
  (i + 1) % a == 0 || i + 1 == n

/-- The gradient of the batch at `enumerate` index `j`, as the loop applies
it after scaling the loss by `1 / a`. -/
def scaledGradAt (batches : List TrainBatchData) (a j : ℕ) : ℚ :=
  (batches.getD j { loss := 0, grad := 0 }).grad / (a : ℚ)

/-- The `enumerate` index of the first batch of the accumulation window the
batch at index `i` belongs to: the previous step happened right before the
`i / a`-th multiple of `a`. -/
def windowStart (a i : ℕ) : ℕ := a * (i / a)

/-- The gradient an optimizer step taken after the batch at index `i`
applies: the sum of the `1 / a`-scaled gradients of the batches processed
since the previous step (indices `windowStart a i` through `i`). -/
def appliedGradAt (batches : List TrainBatchData) (a i : ℕ) : ℚ :=
  ((List.range' (windowStart a i) (i + 1 - windowStart a i)).map
    (scaledGradAt batches a)).sum

/-- The gradient buffer on entering the batch at index `i`: the scaled
gradients already accumulated since the last step (indices
`windowStart a i` through `i - 1`). -/
def pendingGrad (batches : List TrainBatchData) (a i : ℕ) : ℚ :=
  ((List.range' (windowStart a i) (i - windowStart a i)).map
    (scaledGradAt batches a)).sum

/-- The events the batch at index `i` contributes to the trace: a backward
of its `1 / a`-scaled gradient, followed — exactly when `stepCondition`
holds — by an optimizer step applying the window's accumulated gradient
and an immediate `zero_grad`. -/
def perBatchEvents (batches : List TrainBatchData) (a n i : ℕ) :
    List TrainEvent :=
  .backward (scaledGradAt batches a i) ::
    (if stepCondition a n i then
      [.step (appliedGradAt batches a i), .zeroGrad]
    else [])

/-- Number of optimizer steps in a trace. -/
def countSteps (tr : List TrainEvent) : ℕ :=
  tr.countP (fun e => match e with | .step _ => true | _ => false)

/-! ## `evaluate_model` and `test_model` (notebook cells 11, 12)

Both set the model to eval mode, run the dataloader under
`torch.no_grad()`, compute `_, preds = torch.max(outputs, dim=1)` per
batch and extend `predictions` / `true_labels`; `test_model` additionally
returns the pair, `evaluate_model` returns nothing.  The model is the
external classifier: a function from a batch to its logit matrix. -/

/-- A batch yielded by the evaluation dataloaders. -/
structure EvalBatch : Type where
  input_ids : Tensor2
  attention_mask : Tensor2
  labels : List ℕ
deriving DecidableEq, Repr

/-- `torch.max(·, dim=1)` index helper: the index of the first maximal
element, scanning with current best index and value. -/
def argmaxFrom : List ℚ → ℕ → ℕ → ℚ → ℕ
  | [], _, best, _ => best
  | x :: xs, i, best, bv =>
      if bv < x then argmaxFrom xs (i + 1) i x
      else argmaxFrom xs (i + 1) best bv

/-- The index returned by `torch.max(outputs, dim=1)` for one logit row:
the index of the (first) maximal value. -/
def argmaxIdx : List ℚ → ℕ
  | [] => 0
  | x :: xs => argmaxFrom xs 1 0 x

/-- What a run of one of the two evaluation loops does: the mode it puts
the model in, whether gradient tracking is on inside the loop, and the two
sequences it builds. -/
structure EvalRunData : Type where
  evalModeSet : Bool
  gradEnabled : Bool
  predictions : List ℕ
  true_labels : List ℕ
deriving DecidableEq, Repr

/-- `evaluate_model(model, dataloader, device)`: `model.eval()`, loop under
`torch.no_grad()` extending `predictions`/`true_labels`, print the report,
return `None`. -/
def evaluate_model (model : EvalBatch → List (List ℚ))
    (dataloader : List EvalBatch) : EvalRunData × Unit :=
  let pair := dataloader.foldl
    (fun acc batches =>
      let outputs := model batches
      let preds := outputs.map argmaxIdx
      (acc.1 ++ preds, acc.2 ++ batches.labels))
    ([], [])
  ({ evalModeSet := true, gradEnabled := false
     predictions := pair.1, true_labels := pair.2 }, ())

/-- `test_model(model, dataloader, device)`: the same loop as
`evaluate_model`, but `return predictions, true_labels`. -/
def test_model (model : EvalBatch → List (List ℚ))
    (dataloader : List EvalBatch) : EvalRunData × (List ℕ × List ℕ) :=
  let pair := dataloader.foldl
    (fun acc batches =>
      let outputs := model batches
      let preds := outputs.map argmaxIdx
      (acc.1 ++ preds, acc.2 ++ batches.labels))
    ([], [])
  ({ evalModeSet := true, gradEnabled := false
     predictions := pair.1, true_labels := pair.2 }, (pair.1, pair.2))

/-- Cells 23, 34, 45: `torch.save(<X>_preds, 'predictions/<X>_preds.pt')`
for the predictions `test_model` returned for each of the three models. -/
def notebookPredictionSaves
    (dbModel tbModel elModel : EvalBatch → List (List ℚ))
    (dbTest tbTest elTest : List EvalBatch) : List (String × List ℕ) :=
  [("predictions/DB_preds.pt", (test_model dbModel dbTest).2.1),
   ("predictions/TB_preds.pt", (test_model tbModel tbTest).2.1),
   ("predictions/EL_preds.pt", (test_model elModel elTest).2.1)]

/-! ## `CustomDataset` (notebook cell 4) -/

/-- The tokenizer output the dataset is built from: aligned `input_ids` and
`attention_mask` tensors. -/
structure TokenizedInputs : Type where
  input_ids : List (List ℚ)
  attention_mask : List (List ℚ)
deriving DecidableEq, Repr

/-- `CustomDataset(inputs, labels)`. -/
structure CustomDataset : Type where
  inputs : TokenizedInputs
  labels : List ℕ
deriving DecidableEq, Repr

/-- `__len__`: `len(self.inputs['input_ids'])`. -/
def CustomDataset.len (d : CustomDataset) : ℕ :=
  d.inputs.input_ids.length

/-- The (heterogeneous) values of the dictionary `__getitem__` returns. -/
inductive ItemValue : Type
  | ids (v : List ℚ)
  | mask (v : List ℚ)
  | label (v : ℕ)
deriving DecidableEq, Repr

/-- `__getitem__(idx)`: the dictionary with exactly the keys `input_ids`,
`attention_mask`, `labels` (in insertion order), bound to the `idx`-th
entries; an out-of-range index raises (`none`). -/
def CustomDataset.getitem (d : CustomDataset) (idx : ℕ) :
    Option (List (String × ItemValue)) :=
  match d.inputs.input_ids[idx]?, d.inputs.attention_mask[idx]?,
      d.labels[idx]? with
  | some i, some m, some l =>
      some [("input_ids", .ids i), ("attention_mask", .mask m),
            ("labels", .label l)]
  | _, _, _ => none

/-! ### Concrete data used by the claim C6 witness -/

/-- Concrete model for the C6 witness: two logit rows per batch. -/
def wTestModel : EvalBatch → List (List ℚ) := fun _ => [[0, 1], [1, 0]]

/-- Concrete dataloader for the C6 witness: one batch of two examples. -/
def wTestLoader : List EvalBatch :=
  [{ input_ids := [[1], [2]], attention_mask := [[1], [1]], labels := [0, 1] }]

/-! ### Concrete data used by the claim C10 witness -/

/-- Concrete dataset for the C10 witness. -/
def wDataset : CustomDataset :=
  { inputs := { input_ids := [[1], [2]], attention_mask := [[1], [1]] }
    labels := [0, 1] }

/-! ### Claim C5 -/

/-- **C5.** `sum_model_layers(model_name, hidden_states)` raises `ValueError`
if and only if `model_name` is not one of `'distilbert'`, `'tinybert'`,
`'electra'`; for each of those three names (given a nonempty list of hidden
states, which the encoders always produce) it returns normally. -/
theorem sum_model_layers_valueError_iff
    (model_name : String) (hidden_states : List Tensor3)
    (hne : hidden_states ≠ []) :
    (raisesValueError (sum_model_layers model_name hidden_states) ↔
      model_name ∉ supportedModelNames) ∧
    (model_name ∈ supportedModelNames →
      ∃ t, sum_model_layers model_name hidden_states = .ok t) := by
  have hslice : ∀ n, 0 < n → ∃ t rest, lastSlice n hidden_states = t :: rest := by
    intro n hn
    have : lastSlice n hidden_states ≠ [] := by
      unfold lastSlice
      intro h
      have := List.drop_eq_nil_iff.mp h
      have hlen : hidden_states.length ≠ 0 := by
        simpa using List.length_pos.mpr hne |>.ne'
      omega
    rcases heq : lastSlice n hidden_states with _ | ⟨t, rest⟩
    · exact absurd heq this
    · exact ⟨t, rest, rfl⟩
  unfold sum_model_layers supportedModelNames
  by_cases h1 : model_name = "distilbert"
  · obtain ⟨t, rest, heq⟩ := hslice 6 (by norm_num)
    subst h1
    simp [heq, stackSum, raisesValueError]
  · by_cases h2 : model_name = "tinybert"
    · obtain ⟨t, rest, heq⟩ := hslice 4 (by norm_num)
      subst h2
      simp [heq, stackSum, raisesValueError, h1]
    · by_cases h3 : model_name = "electra"
      · obtain ⟨t, rest, heq⟩ := hslice 12 (by norm_num)
        subst h3
        simp [heq, stackSum, raisesValueError, h1, h2]
      · simp [h1, h2, h3, raisesValueError]

/-- Witness for C5 at a concrete input. -/
theorem sum_model_layers_valueError_iff_witness :
    ([[[[(1 : ℚ)]]]] : List Tensor3) ≠ [] ∧
    ((raisesValueError (sum_model_layers "electra" [[[[(1 : ℚ)]]]]) ↔
        "electra" ∉ supportedModelNames) ∧
      ("electra" ∈ supportedModelNames →
        ∃ t, sum_model_layers "electra" [[[[(1 : ℚ)]]]] = .ok t)) :=
  ⟨by simp, sum_model_layers_valueError_iff "electra" [[[[(1 : ℚ)]]]] (by simp)⟩

/-! ### Claim C7 -/

/-- **C7.** The notebook constructs exactly three classifiers — over the
distilled BERT encoder with `in_channels = 768`, over the compact 4-layer
BERT encoder with `in_channels = 312`, and over the discriminator-style
encoder with `in_channels = 256` — and all three share the identical head
construction: `Conv1d` to 64 output channels with kernel size 3 and
padding 1, an LSTM with hidden dimension 64 (fed by the 64 conv channels,
batch-first), and a final `Linear` layer from 64 to 2 classes. -/
theorem notebook_three_classifiers_shared_head (ps1 ps2 ps3 : List ℕ) :
    (DB_model ps1).cnn.in_channels = 768 ∧
    (TB_model ps2).cnn.in_channels = 312 ∧
    (EL_model ps3).cnn.in_channels = 256 ∧
    (DB_model ps1).headSpec = (TB_model ps2).headSpec ∧
    (TB_model ps2).headSpec = (EL_model ps3).headSpec ∧
    (DB_model ps1).headSpec = (64, 3, 1, 64, true, 64, 2) ∧
    (DB_model ps1).fc.out_features = 2 := by
  refine ⟨rfl, rfl, rfl, rfl, rfl, rfl, rfl⟩

/-! ### Claim C2 -/

/-- **C2.** The encoders are fine-tuned, not frozen: the encoder call in
`forward` runs under gradient tracking exactly when the encoder is in
training mode (`torch.set_grad_enabled(self.bert.training)`); every encoder
parameter is among the parameters the notebook's `AdamW` optimizer is
constructed over (so training updates the encoder weights); and after
`model.eval()` gradient tracking through the encoder is disabled. -/
theorem encoder_finetuned_not_frozen (m : CNNLSTMClassifier)
    (ambientMode : Bool) (p : ℕ) (hp : p ∈ m.bert.params) :
    (m.forwardGradModes ambientMode).1 = m.bert.training ∧
    ParamRef.bertParam p ∈ (notebookOptimizer m).params ∧
    (m.trainMode.forwardGradModes ambientMode).1 = true ∧
    (m.evalMode.forwardGradModes ambientMode).1 = false := by
  refine ⟨rfl, ?_, rfl, rfl⟩
  unfold notebookOptimizer AdamW CNNLSTMClassifier.parameters
  exact List.mem_append_left _ (List.mem_map_of_mem ParamRef.bertParam hp)

/-- Witness for C2 at a concrete classifier. -/
theorem encoder_finetuned_not_frozen_witness :
    (3 : ℕ) ∈ (DB_model [3, 7]).bert.params ∧
    ((DB_model [3, 7]).forwardGradModes true).1 =
        (DB_model [3, 7]).bert.training ∧
    ParamRef.bertParam 3 ∈ (notebookOptimizer (DB_model [3, 7])).params ∧
    ((DB_model [3, 7]).trainMode.forwardGradModes true).1 = true ∧
    ((DB_model [3, 7]).evalMode.forwardGradModes true).1 = false :=
  ⟨by decide, encoder_finetuned_not_frozen (DB_model [3, 7]) true 3 (by decide)⟩

/-! ### Shape lemmas -/

/-- Element-wise addition of two `(s, h)` matrices is an `(s, h)` matrix. -/
theorem addMat_shape : ∀ (m1 m2 : List (List ℚ)) (s h : ℕ),
    m1.length = s → (∀ r ∈ m1, r.length = h) →
    m2.length = s → (∀ r ∈ m2, r.length = h) →
    (List.zipWith (List.zipWith (· + ·)) m1 m2).length = s ∧
      ∀ r ∈ List.zipWith (List.zipWith (· + ·)) m1 m2, r.length = h := by
  intro m1
  induction m1 with
  | nil =>
    intro m2 s h h1 _ h3 _
    subst h1
    simp
  | cons r1 m1' ih =>
    intro m2 s h h1 h2 h3 h4
    cases m2 with
    | nil => subst h1; simp at h3
    | cons r2 m2' =>
      cases s with
      | zero => simp at h1
      | succ s' =>
        have hlen1 : m1'.length = s' := by simpa using h1
        have hlen2 : m2'.length = s' := by simpa using h3
        obtain ⟨ha, hb⟩ := ih m2' s' h
          hlen1 (fun r hr => h2 r (List.mem_cons_of_mem _ hr))
          hlen2 (fun r hr => h4 r (List.mem_cons_of_mem _ hr))
        constructor
        · simpa using ha
        · intro r hr
          rcases List.mem_cons.mp hr with hEq | hTail
          · subst hEq
            have e1 : r1.length = h := h2 r1 (List.mem_cons_self _ _)
            have e2 : r2.length = h := h4 r2 (List.mem_cons_self _ _)
            simp [List.length_zipWith, e1, e2]
          · exact hb r hTail

/-- Element-wise addition of two `(b, s, h)` tensors is a `(b, s, h)`
tensor. -/
theorem addT3_shape : ∀ (t u : Tensor3) (b s h : ℕ),
    HasShape3 t b s h → HasShape3 u b s h →
    HasShape3 (addT3 t u) b s h := by
  intro t
  induction t with
  | nil =>
    intro u b s h ht hu
    obtain ⟨ht1, _⟩ := ht
    subst ht1
    simp [addT3, HasShape3]
  | cons m1 t' ih =>
    intro u b s h ht hu
    cases u with
    | nil =>
      obtain ⟨ht1, _⟩ := ht
      obtain ⟨hu1, _⟩ := hu
      simp at ht1 hu1
      omega
    | cons m2 u' =>
      obtain ⟨ht1, ht2⟩ := ht
      obtain ⟨hu1, hu2⟩ := hu
      cases b with
      | zero => simp at ht1
      | succ b' =>
        have hm1 := ht2 m1 (List.mem_cons_self _ _)
        have hm2 := hu2 m2 (List.mem_cons_self _ _)
        obtain ⟨hmat1, hmat2⟩ := addMat_shape m1 m2 s h hm1.1 hm1.2 hm2.1 hm2.2
        have hrest : HasShape3 (addT3 t' u') b' s h := by
          refine ih u' b' s h ⟨by simpa using ht1, ?_⟩ ⟨by simpa using hu1, ?_⟩
          · exact fun m hm => ht2 m (List.mem_cons_of_mem _ hm)
          · exact fun m hm => hu2 m (List.mem_cons_of_mem _ hm)
        refine ⟨by simpa [addT3] using hrest.1, ?_⟩
        intro m hm
        rcases List.mem_cons.mp hm with hEq | hTail
        · exact hEq ▸ ⟨hmat1, hmat2⟩
        · exact hrest.2 m hTail

/-- Folding element-wise addition over equally shaped tensors keeps the
shape. -/
theorem foldl_addT3_shape : ∀ (ts : List Tensor3) (acc : Tensor3) (b s h : ℕ),
    HasShape3 acc b s h → (∀ t ∈ ts, HasShape3 t b s h) →
    HasShape3 (ts.foldl addT3 acc) b s h := by
  intro ts
  induction ts with
  | nil => intro acc b s h hacc _; simpa using hacc
  | cons t ts' ih =>
    intro acc b s h hacc hts
    have h1 : HasShape3 (addT3 acc t) b s h :=
      addT3_shape acc t b s h hacc (hts t (List.mem_cons_self _ _))
    simpa using ih (addT3 acc t) b s h h1
      (fun t' ht' => hts t' (List.mem_cons_of_mem _ ht'))

/-- `stackSum` of a nonempty list of `(b, s, h)` tensors is a `(b, s, h)`
tensor. -/
theorem stackSum_shape (ts : List Tensor3) (b s h : ℕ)
    (hne : ts ≠ []) (hts : ∀ t ∈ ts, HasShape3 t b s h) :
    ∃ T, stackSum ts = some T ∧ HasShape3 T b s h := by
  cases ts with
  | nil => exact absurd rfl hne
  | cons t rest =>
    refine ⟨rest.foldl addT3 t, rfl, ?_⟩
    exact foldl_addT3_shape rest t b s h (hts t (List.mem_cons_self _ _))
      (fun t' ht' => hts t' (List.mem_cons_of_mem _ ht'))

/-- `sum_model_layers` on a supported name and a nonempty list of uniformly
`(b, s, h)`-shaped hidden states returns a `(b, s, h)` tensor. -/
theorem sum_model_layers_shape (model_name : String)
    (hidden_states : List Tensor3) (b s h : ℕ)
    (hname : model_name ∈ supportedModelNames)
    (hne : hidden_states ≠ [])
    (hts : ∀ t ∈ hidden_states, HasShape3 t b s h) :
    ∃ T, sum_model_layers model_name hidden_states = .ok T ∧
      HasShape3 T b s h := by
  have hslice : ∀ n : ℕ, 0 < n →
      lastSlice n hidden_states ≠ [] ∧
        ∀ t ∈ lastSlice n hidden_states, HasShape3 t b s h := by
    intro n hn
    constructor
    · unfold lastSlice
      intro hdrop
      have := List.drop_eq_nil_iff.mp hdrop
      have hlen : hidden_states.length ≠ 0 := by
        simpa using List.length_pos.mpr hne |>.ne'
      omega
    · intro t ht
      exact hts t (List.drop_subset _ _ ht)
  rcases List.mem_cons.mp hname with h1 | hname'
  · subst h1
    obtain ⟨hne6, hsh6⟩ := hslice 6 (by norm_num)
    obtain ⟨T, hT, hTsh⟩ := stackSum_shape _ b s h hne6 hsh6
    exact ⟨T, by simp [sum_model_layers, hT], hTsh⟩
  rcases List.mem_cons.mp hname' with h2 | hname''
  · subst h2
    obtain ⟨hne4, hsh4⟩ := hslice 4 (by norm_num)
    obtain ⟨T, hT, hTsh⟩ := stackSum_shape _ b s h hne4 hsh4
    exact ⟨T, by simp [sum_model_layers, hT], hTsh⟩
  rcases List.mem_cons.mp hname'' with h3 | habs
  · subst h3
    obtain ⟨hne12, hsh12⟩ := hslice 12 (by norm_num)
    obtain ⟨T, hT, hTsh⟩ := stackSum_shape _ b s h hne12 hsh12
    exact ⟨T, by simp [sum_model_layers, hT], hTsh⟩
  · simp at habs

/-- `permute(0, 2, 1)` swaps the last two axes of a uniformly shaped tensor
with at least one row per matrix. -/
theorem permute021_shape (t : Tensor3) (b s h : ℕ)
    (hs : 1 ≤ s) (ht : HasShape3 t b s h) :
    HasShape3 (permute021 t) b h s := by
  obtain ⟨ht1, ht2⟩ := ht
  refine ⟨by simpa [permute021] using ht1, ?_⟩
  intro m hm
  rw [permute021, List.mem_map] at hm
  obtain ⟨m0, hm0, rfl⟩ := hm
  obtain ⟨hm0len, hm0rows⟩ := ht2 m0 hm0
  have hhead : (m0.headD []).length = h := by
    cases m0 with
    | nil => simp at hm0len; omega
    | cons r m0' => exact hm0rows r (List.mem_cons_self _ _)
  constructor
  · simpa using hhead
  · intro r hr
    rw [List.mem_map] at hr
    obtain ⟨j, _, rfl⟩ := hr
    simpa using hm0len

/-- `nn.Linear` with `n` output rows produces a length-`n` vector whatever
the input vector is. -/
theorem linearApply_length (weight : List (List ℚ)) (bias : List ℚ)
    (x : List ℚ) (n : ℕ) (hW : weight.length = n) (hb : bias.length = n) :
    (linearApply weight bias x).length = n := by
  simp [linearApply, hW, hb]

/-! ### Claim C3 -/

/-- **C3.** For every batch of `b` input sequences, `forward` returns a
logit tensor of shape `(b, 2)` (`num_classes = 2`), computed by applying
the final linear layer to the LSTM output at the last time step only: with
the framework layers constrained by their shape contracts (the encoder
yields `(b, s, h)` hidden states, the conv layer maps `(b, h, s)` to
`(b, 64, s)`, the LSTM maps `(b, s, 64)` to `(b, s, 64)`), the result is a
list of `b` logit rows of length 2, and any LSTM producing the same last
time step per batch element yields the same logits. -/
theorem forward_logits_shape (model_name : String)
    (bertF : Tensor2 → Tensor2 → List Tensor3)
    (cnnF lstmF : Tensor3 → Tensor3)
    (fcWeight : List (List ℚ)) (fcBias : List ℚ)
    (input_ids attention_mask : Tensor2) (b s h : ℕ)
    (hname : model_name ∈ supportedModelNames)
    (hs1 : 1 ≤ s)
    (hbertNe : bertF input_ids attention_mask ≠ [])
    (hbert : ∀ t ∈ bertF input_ids attention_mask, HasShape3 t b s h)
    (hcnn : ∀ t, HasShape3 t b h s → HasShape3 (cnnF t) b 64 s)
    (hlstm : ∀ t, HasShape3 t b s 64 → HasShape3 (lstmF t) b s 64)
    (hfcW : fcWeight.length = 2) (hfcB : fcBias.length = 2) :
    ∃ logits,
      CNNLSTMClassifier.forwardRun model_name bertF cnnF lstmF fcWeight
          fcBias input_ids attention_mask = .ok logits ∧
      logits.length = b ∧
      (∀ r ∈ logits, r.length = 2) ∧
      ∀ lstmF' : Tensor3 → Tensor3,
        (∀ t, (lstmF' t).map (fun q => q.getLastD []) =
              (lstmF t).map (fun q => q.getLastD [])) →
        CNNLSTMClassifier.forwardRun model_name bertF cnnF lstmF' fcWeight
            fcBias input_ids attention_mask = .ok logits := by
  obtain ⟨T, hT, hTsh⟩ :=
    sum_model_layers_shape model_name (bertF input_ids attention_mask)
      b s h hname hbertNe hbert
  have hperm : HasShape3 (permute021 T) b h s := permute021_shape T b s h hs1 hTsh
  have hcnnSh : HasShape3 (cnnF (permute021 T)) b 64 s := hcnn _ hperm
  have hperm2 : HasShape3 (permute021 (cnnF (permute021 T))) b s 64 :=
    permute021_shape _ b 64 s (by norm_num) hcnnSh
  have hlstmSh := hlstm _ hperm2
  refine ⟨(lstmF (permute021 (cnnF (permute021 T)))).map
      (fun seqOut => linearApply fcWeight fcBias (seqOut.getLastD [])), ?_, ?_, ?_, ?_⟩
  · simp [CNNLSTMClassifier.forwardRun, CNNLSTMClassifier.forwardEmbeddings,
      hT, Except.map]
  · simpa using hlstmSh.1
  · intro r hr
    rw [List.mem_map] at hr
    obtain ⟨q, _, rfl⟩ := hr
    exact linearApply_length fcWeight fcBias _ 2 hfcW hfcB
  · intro lstmF' hlast
    have hmaps :
        (lstmF' (permute021 (cnnF (permute021 T)))).map
            (fun seqOut => linearApply fcWeight fcBias (seqOut.getLastD [])) =
          (lstmF (permute021 (cnnF (permute021 T)))).map
            (fun seqOut => linearApply fcWeight fcBias (seqOut.getLastD [])) := by
      have h1 := hlast (permute021 (cnnF (permute021 T)))
      calc (lstmF' (permute021 (cnnF (permute021 T)))).map
              (fun seqOut => linearApply fcWeight fcBias (seqOut.getLastD []))
          = ((lstmF' (permute021 (cnnF (permute021 T)))).map
              (fun q => q.getLastD [])).map (linearApply fcWeight fcBias) := by
            rw [List.map_map]; rfl
        _ = ((lstmF (permute021 (cnnF (permute021 T)))).map
              (fun q => q.getLastD [])).map (linearApply fcWeight fcBias) := by
            rw [h1]
        _ = (lstmF (permute021 (cnnF (permute021 T)))).map
              (fun seqOut => linearApply fcWeight fcBias (seqOut.getLastD [])) := by
            rw [List.map_map]; rfl
    simp [CNNLSTMClassifier.forwardRun, CNNLSTMClassifier.forwardEmbeddings,
      hT, Except.map]
    simpa using hmaps

/-- Witness for C3 at a concrete instantiation of the framework layers. -/
theorem forward_logits_shape_witness :
    ("distilbert" ∈ supportedModelNames ∧
      (1 : ℕ) ≤ 1 ∧
      wBertF [[1]] [[1]] ≠ [] ∧
      (∀ t ∈ wBertF [[1]] [[1]], HasShape3 t 1 1 1) ∧
      (∀ t, HasShape3 t 1 1 1 → HasShape3 (wCnnF t) 1 64 1) ∧
      (∀ t, HasShape3 t 1 1 64 → HasShape3 (wLstmF t) 1 1 64) ∧
      wFcWeight.length = 2 ∧ ([0, 0] : List ℚ).length = 2) ∧
    ∃ logits,
      CNNLSTMClassifier.forwardRun "distilbert" wBertF wCnnF wLstmF wFcWeight
          [0, 0] [[1]] [[1]] = .ok logits ∧
      logits.length = 1 ∧
      (∀ r ∈ logits, r.length = 2) ∧
      ∀ lstmF' : Tensor3 → Tensor3,
        (∀ t, (lstmF' t).map (fun q => q.getLastD []) =
              (wLstmF t).map (fun q => q.getLastD [])) →
        CNNLSTMClassifier.forwardRun "distilbert" wBertF wCnnF lstmF' wFcWeight
            [0, 0] [[1]] [[1]] = .ok logits :=
  ⟨⟨by decide, by decide, by simp [wBertF], by decide,
    fun t _ => by simp only [wCnnF]; decide,
    fun t _ => by simp only [wLstmF]; decide, by decide, by decide⟩,
   forward_logits_shape "distilbert" wBertF wCnnF wLstmF wFcWeight [0, 0]
     [[1]] [[1]] 1 1 1 (by decide) (by decide) (by simp [wBertF]) (by decide)
     (fun t _ => by simp only [wCnnF]; decide)
     (fun t _ => by simp only [wLstmF]; decide) (by decide) (by decide)⟩

/-! ### Element-wise sum lemmas (claim C4) -/

/-- `getD` distributes over `zipWith` inside both lists' lengths. -/
theorem getD_zipWith {α : Type} (f : α → α → α) (d : α) :
    ∀ (xs ys : List α) (i : ℕ), i < xs.length → i < ys.length →
      (List.zipWith f xs ys).getD i d = f (xs.getD i d) (ys.getD i d) := by
  intro xs
  induction xs with
  | nil => intro ys i hx _; simp at hx
  | cons x xs' ih =>
    intro ys i hx hy
    cases ys with
    | nil => simp at hy
    | cons y ys' =>
      cases i with
      | zero => simp
      | succ i' =>
        simp only [List.zipWith_cons_cons, List.getD_cons_succ]
        exact ih ys' i' (by simpa using hx) (by simpa using hy)

/-- A `getD` inside a list's length picks a member of the list. -/
theorem getD_mem {α : Type} (l : List α) (i : ℕ) (d : α) (h : i < l.length) :
    l.getD i d ∈ l := by
  rw [List.getD_eq_getElem l d h]
  exact List.getElem_mem h

/-- Entries of the element-wise tensor sum add, inside the common shape. -/
theorem entry3_addT3 (t u : Tensor3) (b s h i j k : ℕ)
    (ht : HasShape3 t b s h) (hu : HasShape3 u b s h)
    (hi : i < b) (hj : j < s) (hk : k < h) :
    entry3 (addT3 t u) i j k = entry3 t i j k + entry3 u i j k := by
  obtain ⟨ht1, ht2⟩ := ht
  obtain ⟨hu1, hu2⟩ := hu
  have hit : i < t.length := by omega
  have hiu : i < u.length := by omega
  have htm := ht2 (t.getD i []) (getD_mem t i [] hit)
  have hum := hu2 (u.getD i []) (getD_mem u i [] hiu)
  have hjt : j < (t.getD i []).length := by omega
  have hju : j < (u.getD i []).length := by omega
  have htr := htm.2 ((t.getD i []).getD j []) (getD_mem _ j [] hjt)
  have hur := hum.2 ((u.getD i []).getD j []) (getD_mem _ j [] hju)
  unfold entry3 addT3
  rw [getD_zipWith _ _ t u i hit hiu,
    getD_zipWith _ _ (t.getD i []) (u.getD i []) j hjt hju,
    getD_zipWith _ _ _ _ k (by omega) (by omega)]

/-- Entries of a fold of element-wise sums accumulate, inside the common
shape. -/
theorem entry3_foldl_addT3 : ∀ (ts : List Tensor3) (acc : Tensor3)
    (b s h i j k : ℕ), HasShape3 acc b s h → (∀ t ∈ ts, HasShape3 t b s h) →
    i < b → j < s → k < h →
    entry3 (ts.foldl addT3 acc) i j k =
      entry3 acc i j k + (ts.map (fun t => entry3 t i j k)).sum := by
  intro ts
  induction ts with
  | nil => intro acc b s h i j k _ _ _ _ _; simp
  | cons t ts' ih =>
    intro acc b s h i j k hacc hts hi hj hk
    have hshape : HasShape3 (addT3 acc t) b s h :=
      addT3_shape acc t b s h hacc (hts t (List.mem_cons_self _ _))
    have step := ih (addT3 acc t) b s h i j k hshape
      (fun t' ht' => hts t' (List.mem_cons_of_mem _ ht')) hi hj hk
    simp only [List.foldl_cons, step,
      entry3_addT3 acc t b s h i j k hacc (hts t (List.mem_cons_self _ _)) hi hj hk,
      List.map_cons, List.sum_cons]
    ring

/-- `getD` evaluates a map over `List.range` inside the range. -/
theorem getD_map_range {α : Type} (f : ℕ → α) (b i : ℕ) (d : α)
    (h : i < b) : ((List.range b).map f).getD i d = f i := by
  rw [List.getD_eq_getElem _ d (by simpa using h)]
  simp

/-- `specElementwiseSum b s h ts` has shape `(b, s, h)`. -/
theorem specElementwiseSum_shape (b s h : ℕ) (ts : List Tensor3) :
    HasShape3 (specElementwiseSum b s h ts) b s h := by
  refine ⟨by simp [specElementwiseSum], ?_⟩
  intro m hm
  rw [specElementwiseSum, List.mem_map] at hm
  obtain ⟨i, _, rfl⟩ := hm
  refine ⟨by simp, ?_⟩
  intro r hr
  rw [List.mem_map] at hr
  obtain ⟨j, _, rfl⟩ := hr
  simp

/-- Entry `(i, j, k)` of `specElementwiseSum` inside the shape. -/
theorem entry3_specElementwiseSum (b s h i j k : ℕ) (ts : List Tensor3)
    (hi : i < b) (hj : j < s) (hk : k < h) :
    entry3 (specElementwiseSum b s h ts) i j k =
      (ts.map (fun t => entry3 t i j k)).sum := by
  unfold entry3 specElementwiseSum
  rw [getD_map_range _ b i [] hi, getD_map_range _ s j [] hj,
    getD_map_range _ h k 0 hk]
  rfl

/-- Two tensors of the same shape with the same entries are equal. -/
theorem shape_ext (t u : Tensor3) (b s h : ℕ)
    (ht : HasShape3 t b s h) (hu : HasShape3 u b s h)
    (hentry : ∀ i j k, i < b → j < s → k < h →
      entry3 t i j k = entry3 u i j k) : t = u := by
  obtain ⟨ht1, ht2⟩ := ht
  obtain ⟨hu1, hu2⟩ := hu
  apply List.ext_getElem (by omega)
  intro i hit hiu
  have htm := ht2 t[i] (List.getElem_mem hit)
  have hum := hu2 u[i] (List.getElem_mem hiu)
  apply List.ext_getElem (by omega)
  intro j hjt hju
  have htr := htm.2 (t[i][j]) (List.getElem_mem hjt)
  have hur := hum.2 (u[i][j]) (List.getElem_mem hju)
  apply List.ext_getElem (by omega)
  intro k hkt hku
  have := hentry i j k (by omega) (by omega) (by omega)
  unfold entry3 at this
  rwa [List.getD_eq_getElem t [] hit, List.getD_eq_getElem u [] hiu,
    List.getD_eq_getElem _ [] hjt, List.getD_eq_getElem _ [] hju,
    List.getD_eq_getElem _ 0 hkt, List.getD_eq_getElem _ 0 hku] at this

/-- `torch.stack(ts).sum(dim=0)` on a nonempty uniformly shaped list is
exactly the element-wise sum described by the spec. -/
theorem stackSum_eq_specElementwiseSum (ts : List Tensor3) (b s h : ℕ)
    (hne : ts ≠ []) (hts : ∀ t ∈ ts, HasShape3 t b s h) :
    stackSum ts = some (specElementwiseSum b s h ts) := by
  cases ts with
  | nil => exact absurd rfl hne
  | cons t rest =>
    have h0 : HasShape3 t b s h := hts t (List.mem_cons_self _ _)
    have hrest : ∀ t' ∈ rest, HasShape3 t' b s h :=
      fun t' ht' => hts t' (List.mem_cons_of_mem _ ht')
    have hfold : HasShape3 (rest.foldl addT3 t) b s h :=
      foldl_addT3_shape rest t b s h h0 hrest
    have hspec := specElementwiseSum_shape b s h (t :: rest)
    rw [stackSum, Option.some.injEq]
    apply shape_ext _ _ b s h hfold hspec
    intro i j k hi hj hk
    rw [entry3_foldl_addT3 rest t b s h i j k h0 hrest hi hj hk,
      entry3_specElementwiseSum b s h i j k (t :: rest) hi hj hk]
    simp

/-- The last-`n` slice of a nonempty list of `(b, s, h)` tensors is
nonempty and uniformly shaped. -/
theorem lastSlice_ne_and_shape (hs : List Tensor3) (b s h n : ℕ)
    (hn : 0 < n) (hne : hs ≠ []) (hts : ∀ t ∈ hs, HasShape3 t b s h) :
    lastSlice n hs ≠ [] ∧ ∀ t ∈ lastSlice n hs, HasShape3 t b s h := by
  constructor
  · unfold lastSlice
    intro hdrop
    have := List.drop_eq_nil_iff.mp hdrop
    have hlen : hs.length ≠ 0 := by
      simpa using List.length_pos.mpr hne |>.ne'
    omega
  · intro t ht
    exact hts t (List.drop_subset _ _ ht)

/-! ### Claim C4 -/

/-- **C4.** The pooled transformer hidden states consumed by the
classification head are computed by `sum_model_layers` as the element-wise
sum of the last `k` hidden-state tensors — `k = 6` for `'distilbert'`,
`k = 4` for `'tinybert'`, `k = 12` for `'electra'` — and the `embeddings`
the head receives are exactly this sum permuted to channels-first
(`permute(0, 2, 1)`). -/
theorem pooled_hidden_states_are_lastk_sum (hs : List Tensor3) (b s h : ℕ)
    (hne : hs ≠ []) (hts : ∀ t ∈ hs, HasShape3 t b s h) :
    (sum_model_layers "distilbert" hs =
        .ok (specElementwiseSum b s h (lastSlice 6 hs)) ∧
      CNNLSTMClassifier.forwardEmbeddings "distilbert" hs =
        .ok (permute021 (specElementwiseSum b s h (lastSlice 6 hs)))) ∧
    (sum_model_layers "tinybert" hs =
        .ok (specElementwiseSum b s h (lastSlice 4 hs)) ∧
      CNNLSTMClassifier.forwardEmbeddings "tinybert" hs =
        .ok (permute021 (specElementwiseSum b s h (lastSlice 4 hs)))) ∧
    (sum_model_layers "electra" hs =
        .ok (specElementwiseSum b s h (lastSlice 12 hs)) ∧
      CNNLSTMClassifier.forwardEmbeddings "electra" hs =
        .ok (permute021 (specElementwiseSum b s h (lastSlice 12 hs)))) := by
  have h6 := lastSlice_ne_and_shape hs b s h 6 (by norm_num) hne hts
  have h4 := lastSlice_ne_and_shape hs b s h 4 (by norm_num) hne hts
  have h12 := lastSlice_ne_and_shape hs b s h 12 (by norm_num) hne hts
  have e6 := stackSum_eq_specElementwiseSum (lastSlice 6 hs) b s h h6.1 h6.2
  have e4 := stackSum_eq_specElementwiseSum (lastSlice 4 hs) b s h h4.1 h4.2
  have e12 := stackSum_eq_specElementwiseSum (lastSlice 12 hs) b s h h12.1 h12.2
  refine ⟨⟨?_, ?_⟩, ⟨?_, ?_⟩, ?_, ?_⟩ <;>
    simp [sum_model_layers, CNNLSTMClassifier.forwardEmbeddings, e6, e4,
      e12, Except.map]

/-- Witness for C4 at two concrete `(1, 1, 1)` hidden-state tensors. -/
theorem pooled_hidden_states_are_lastk_sum_witness :
    (([[[[2]]], [[[3]]]] : List Tensor3) ≠ [] ∧
      (∀ t ∈ ([[[[2]]], [[[3]]]] : List Tensor3), HasShape3 t 1 1 1)) ∧
    sum_model_layers "distilbert" [[[[2]]], [[[3]]]] =
      .ok (specElementwiseSum 1 1 1 (lastSlice 6 [[[[2]]], [[[3]]]])) ∧
    CNNLSTMClassifier.forwardEmbeddings "distilbert" [[[[2]]], [[[3]]]] =
      .ok (permute021 (specElementwiseSum 1 1 1 (lastSlice 6 [[[[2]]], [[[3]]]]))) :=
  ⟨⟨by simp, by decide⟩,
   (pooled_hidden_states_are_lastk_sum [[[[2]]], [[[3]]]] 1 1 1
     (by simp) (by decide)).1⟩

/-! ### Training-loop lemmas (claims C1, C9) -/

/-- The central invariant of the training loop: from `enumerate` index `i`
with the pending window's scaled gradients in the buffer, the loop emits
exactly the per-batch events (backward; step + zero when the condition
holds) and accumulates `loss / a * a` per batch into `total_loss`. -/
theorem runBatches_spec : ∀ (rest batches : List TrainBatchData)
    (a i : ℕ) (st : TrainState), 1 ≤ a → batches.drop i = rest →
    (rest ≠ [] → st.accGrad = pendingGrad batches a i) →
    (runBatches a batches.length st i rest).trace =
        st.trace ++ (List.range' i rest.length).flatMap
          (perBatchEvents batches a batches.length) ∧
      (runBatches a batches.length st i rest).totalLoss =
        st.totalLoss +
          (rest.map (fun bt => bt.loss / (a : ℚ) * (a : ℚ))).sum := by
  intro rest
  induction rest with
  | nil =>
    intro batches a i st ha hdrop hacc
    simp [runBatches]
  | cons bt rest' ih =>
    intro batches a i st ha hdrop hacc
    have hi_lt : i < batches.length := by
      by_contra hge
      push_neg at hge
      rw [List.drop_eq_nil_iff.mpr hge] at hdrop
      exact List.cons_ne_nil bt rest' hdrop.symm
    have hbt : batches[i]? = some bt := by
      have h := List.head?_drop batches i
      rw [hdrop] at h
      simpa using h.symm
    have hgetD : batches.getD i { loss := 0, grad := 0 } = bt := by
      rw [List.getD_eq_getElem?_getD, hbt]
      rfl
    have hscaled : scaledGradAt batches a i = bt.grad / (a : ℚ) := by
      rw [scaledGradAt, hgetD]
    have hdrop' : batches.drop (i + 1) = rest' := by
      have h := List.tail_drop batches i
      rw [hdrop] at h
      simpa using h.symm
    have hws_le : windowStart a i ≤ i := Nat.mul_div_le i a
    have happlied : appliedGradAt batches a i =
        pendingGrad batches a i + scaledGradAt batches a i := by
      unfold appliedGradAt pendingGrad
      have h1 : i + 1 - windowStart a i = (i - windowStart a i) + 1 := by
        omega
      rw [h1, List.range'_concat]
      have h2 : windowStart a i + 1 * (i - windowStart a i) = i := by
        omega
      rw [h2, List.map_append, List.sum_append]
      simp
    have hpend : st.accGrad = pendingGrad batches a i :=
      hacc (List.cons_ne_nil bt rest')
    have hlen_lt : ∀ x ∈ List.range' i ((bt :: rest').length), x < batches.length := by
      intro x hx
      have hx' := List.mem_range'.mp hx
      have : (bt :: rest').length = batches.length - i := by
        rw [← hdrop]
        simp
      omega
    cases hc : ((i + 1) % a == 0 || i + 1 == batches.length) with
    | true =>
      have hstep : stepCondition a batches.length i = true := by
        rwa [stepCondition]
      have hnext : rest' ≠ [] → (0 : ℚ) = pendingGrad batches a (i + 1) := by
        intro hne'
        have hi1_lt : i + 1 < batches.length := by
          by_contra hge
          push_neg at hge
          rw [List.drop_eq_nil_iff.mpr hge] at hdrop'
          exact hne' hdrop'.symm
        have hdvd : a ∣ (i + 1) := by
          rcases Bool.or_eq_true_iff.mp hc with h | h
          · exact Nat.dvd_iff_mod_eq_zero.mpr (beq_iff_eq.mp h)
          · have := beq_iff_eq.mp h
            omega
        have hws : windowStart a (i + 1) = i + 1 := by
          rw [windowStart, Nat.mul_div_cancel' hdvd]
        rw [pendingGrad, hws]
        simp
      obtain ⟨ihT, ihL⟩ := ih batches a (i + 1)
        (processBatch a batches.length i st bt) ha hdrop' (by
          intro hne'
          have := hnext hne'
          simpa [processBatch, hc] using this)
      constructor
      · rw [runBatches, ihT]
        simp only [processBatch, hc]
        simp only [List.length_cons, List.range'_succ, List.flatMap_cons]
        rw [perBatchEvents, hstep]
        simp only [if_true, hscaled, happlied, hpend]
        simp [List.append_assoc]
      · rw [runBatches, ihL]
        simp only [processBatch, hc]
        simp [List.sum_cons]
        ring
    | false =>
      have hstep : stepCondition a batches.length i = false := by
        rwa [stepCondition]
      have hndvd : ¬ a ∣ (i + 1) := by
        intro hdvd
        have : (i + 1) % a = 0 := Nat.dvd_iff_mod_eq_zero.mp hdvd
        rw [Bool.or_eq_false_iff] at hc
        exact absurd (by simpa using this) (by simpa using hc.1)
      have hws : windowStart a (i + 1) = windowStart a i := by
        rw [windowStart, windowStart, Nat.succ_div, if_neg hndvd]
        simp
      have hnext : rest' ≠ [] →
          st.accGrad + bt.grad / (a : ℚ) = pendingGrad batches a (i + 1) := by
        intro _
        have : pendingGrad batches a (i + 1) = appliedGradAt batches a i := by
          rw [pendingGrad, appliedGradAt, hws]
        rw [this, happlied, hpend, hscaled]
      obtain ⟨ihT, ihL⟩ := ih batches a (i + 1)
        (processBatch a batches.length i st bt) ha hdrop' (by
          intro hne'
          have := hnext hne'
          simpa [processBatch, hc] using this)
      constructor
      · rw [runBatches, ihT]
        simp only [processBatch, hc]
        simp only [List.length_cons, List.range'_succ, List.flatMap_cons]
        rw [perBatchEvents, hstep]
        simp only [if_false, hscaled]
        simp [List.append_assoc]
      · rw [runBatches, ihL]
        simp only [processBatch, hc]
        simp [List.sum_cons]
        ring

/-- `countP` distributes over `flatMap`. -/
theorem countP_flatMap {α β : Type} (p : β → Bool) (l : List α)
    (f : α → List β) :
    (l.flatMap f).countP p = (l.map (fun x => (f x).countP p)).sum := by
  induction l with
  | nil => simp
  | cons x l' ih => simp [List.flatMap_cons, List.countP_append, ih]

/-- A batch's event block holds one optimizer step when the step condition
holds, none otherwise. -/
theorem countSteps_perBatchEvents (batches : List TrainBatchData)
    (a n i : ℕ) :
    countSteps (perBatchEvents batches a n i) =
      if stepCondition a n i then 1 else 0 := by
  unfold countSteps perBatchEvents
  cases stepCondition a n i <;> simp [List.countP_cons]

/-- A sum of 0/1 indicators over a list counts the satisfying elements. -/
theorem sum_map_indicator (l : List ℕ) (p : ℕ → Bool) :
    (l.map (fun i => if p i then (1 : ℕ) else 0)).sum = l.countP p := by
  induction l with
  | nil => simp
  | cons x l' ih =>
    by_cases h : p x <;> simp [List.countP_cons, h, ih, Nat.add_comm]

/-- Among 1-based indices `1..m`, exactly `m / a` are multiples of `a`. -/
theorem countP_multiples (a : ℕ) : ∀ m : ℕ,
    (List.range' 0 m).countP (fun i => (i + 1) % a == 0) = m / a := by
  intro m
  induction m with
  | zero => simp
  | succ m' ih =>
    by_cases h : a ∣ m' + 1
    · have hmod : (m' + 1) % a = 0 := Nat.dvd_iff_mod_eq_zero.mp h
      simp [List.range'_concat, List.countP_append, ih, Nat.succ_div, h,
        hmod, List.countP_cons]
    · have hmod : ¬ (m' + 1) % a = 0 :=
        fun hh => h (Nat.dvd_iff_mod_eq_zero.mpr hh)
      simp [List.range'_concat, List.countP_append, ih, Nat.succ_div, h,
        hmod, List.countP_cons]

/-- Over a dataloader of `n ≥ 1` batches, the step condition holds for
exactly `⌈n / a⌉ = (n + a - 1) / a` of the indices `0..n-1`. -/
theorem countP_stepCondition (a n : ℕ) (ha : 1 ≤ a) (hn : 1 ≤ n) :
    (List.range' 0 n).countP (stepCondition a n) = (n + a - 1) / a := by
  obtain ⟨m, rfl⟩ : ∃ m, n = m + 1 := ⟨n - 1, by omega⟩
  rw [List.range'_concat, List.countP_append]
  have h1 : (List.range' 0 m).countP (stepCondition a (m + 1)) =
      (List.range' 0 m).countP (fun i => (i + 1) % a == 0) := by
    apply List.countP_congr
    intro x hx
    have hx' := List.mem_range'.mp hx
    unfold stepCondition
    have hne : (x + 1 == m + 1) = false := by
      rw [Bool.eq_false_iff]
      intro hb
      have := beq_iff_eq.mp hb
      omega
    rw [hne, Bool.or_false]
  have h2 : m + 1 + a - 1 = m + a := by omega
  rw [h1, countP_multiples a m, h2, Nat.add_div_right m (by omega)]
  simp [stepCondition, List.countP_cons]

/-- One epoch of `train_model`: the trace is exactly the concatenation of
the per-batch event blocks, and `total_loss` accumulates `loss / a * a`
per batch. -/
theorem trainEpoch_spec (a : ℕ) (batches : List TrainBatchData)
    (ha : 1 ≤ a) :
    (trainEpoch a batches).trace =
        (List.range' 0 batches.length).flatMap
          (perBatchEvents batches a batches.length) ∧
      (trainEpoch a batches).totalLoss =
        (batches.map (fun bt => bt.loss / (a : ℚ) * (a : ℚ))).sum := by
  obtain ⟨hT, hL⟩ := runBatches_spec batches batches a 0
    { accGrad := 0, totalLoss := 0, trace := [] } ha (by simp)
    (by intro _; simp [pendingGrad, windowStart])
  exact ⟨by simpa [trainEpoch] using hT, by simpa [trainEpoch] using hL⟩

/-! ### Claim C1 -/

/-- **C1.** For every dataloader of `n ≥ 1` batches and every
`accumulation_steps = a ≥ 1`, each epoch of `train_model` performs an
optimizer step exactly after those batches whose 1-based index `i + 1`
satisfies `(i + 1) % a == 0` or `i + 1 == n` (that is the `stepCondition`
in the per-batch event block), each step immediately followed by
`zero_grad`; the gradient a step applies is the sum of the `1 / a`-scaled
per-batch gradients accumulated since the previous step
(`appliedGradAt`); and each epoch performs exactly
`⌈n / a⌉ = (n + a - 1) / a` optimizer steps. -/
theorem train_model_gradient_accumulation (num_epochs a : ℕ)
    (batches : List TrainBatchData) (ha : 1 ≤ a) (hn : 1 ≤ batches.length) :
    ∀ ep ∈ train_model num_epochs a batches,
      ep.trace = (List.range' 0 batches.length).flatMap
          (perBatchEvents batches a batches.length) ∧
      countSteps ep.trace = (batches.length + a - 1) / a := by
  intro ep hep
  rw [train_model, List.mem_map] at hep
  obtain ⟨e, _, rfl⟩ := hep
  obtain ⟨hT, _⟩ := trainEpoch_spec a batches ha
  refine ⟨hT, ?_⟩
  rw [hT, countSteps, countP_flatMap]
  have hcong : (List.range' 0 batches.length).map
      (fun x => (perBatchEvents batches a batches.length x).countP
        (fun e => match e with | .step _ => true | _ => false)) =
      (List.range' 0 batches.length).map
        (fun x => if stepCondition a batches.length x then 1 else 0) := by
    apply List.map_congr_left
    intro x _
    exact countSteps_perBatchEvents batches a batches.length x
  rw [hcong, sum_map_indicator, countP_stepCondition a batches.length ha hn]

/-- Witness for C1: three batches, accumulation over two. -/
theorem train_model_gradient_accumulation_witness :
    ((1 : ℕ) ≤ 2 ∧ (1 : ℕ) ≤
        ([⟨1, 2⟩, ⟨3, 4⟩, ⟨5, 6⟩] : List TrainBatchData).length) ∧
    ∀ ep ∈ train_model 1 2 [⟨1, 2⟩, ⟨3, 4⟩, ⟨5, 6⟩],
      ep.trace = (List.range' 0
          ([⟨1, 2⟩, ⟨3, 4⟩, ⟨5, 6⟩] : List TrainBatchData).length).flatMap
          (perBatchEvents [⟨1, 2⟩, ⟨3, 4⟩, ⟨5, 6⟩] 2
            ([⟨1, 2⟩, ⟨3, 4⟩, ⟨5, 6⟩] : List TrainBatchData).length) ∧
      countSteps ep.trace =
        (([⟨1, 2⟩, ⟨3, 4⟩, ⟨5, 6⟩] : List TrainBatchData).length + 2 - 1) / 2 :=
  ⟨⟨by decide, by decide⟩,
   train_model_gradient_accumulation 1 2 [⟨1, 2⟩, ⟨3, 4⟩, ⟨5, 6⟩]
     (by decide) (by decide)⟩

/-! ### Claim C9 -/

/-- **C9.** The per-epoch `avg_loss` equals the arithmetic mean of the
unscaled per-batch criterion losses: over exact rational arithmetic the
division of each loss by `accumulation_steps` before backward and the
multiplication by `accumulation_steps` when accumulating `total_loss`
cancel, so for every `a ≥ 1` the reported value is
`(Σ lossᵢ) / n` — independent of `a`. -/
theorem avg_loss_eq_mean_of_unscaled (a : ℕ)
    (batches : List TrainBatchData) (ha : 1 ≤ a) :
    avg_loss a batches =
      (batches.map (fun bt => bt.loss)).sum / (batches.length : ℚ) := by
  have hL := (trainEpoch_spec a batches ha).2
  have hmap : batches.map (fun bt => bt.loss / (a : ℚ) * (a : ℚ)) =
      batches.map (fun bt => bt.loss) := by
    apply List.map_congr_left
    intro bt _
    have hane : (a : ℚ) ≠ 0 := by
      have : a ≠ 0 := by omega
      exact_mod_cast this
    exact div_mul_cancel₀ bt.loss hane
  rw [avg_loss, hL, hmap]

/-- Witness for C9: two batches, accumulation over ten. -/
theorem avg_loss_eq_mean_of_unscaled_witness :
    (1 : ℕ) ≤ 10 ∧
    avg_loss 10 [⟨2, 0⟩, ⟨4, 0⟩] =
      (([⟨2, 0⟩, ⟨4, 0⟩] : List TrainBatchData).map
        (fun bt => bt.loss)).sum / (([⟨2, 0⟩, ⟨4, 0⟩] : List TrainBatchData).length : ℚ) :=
  ⟨by decide, avg_loss_eq_mean_of_unscaled 10 [⟨2, 0⟩, ⟨4, 0⟩] (by decide)⟩

/-! ### Claim C8 -/

/-- **C8.** For the same model and dataloader, `evaluate_model` and
`test_model` compute identical prediction and true-label sequences — both
set the model to eval mode, run without gradient tracking and take the
per-row argmax over logit dimension 1 — and the only behavioural
difference is the return value: `test_model` returns
`(predictions, true_labels)` while `evaluate_model` returns nothing. -/
theorem evaluate_model_refines_test_model
    (model : EvalBatch → List (List ℚ)) (dataloader : List EvalBatch) :
    (evaluate_model model dataloader).1 = (test_model model dataloader).1 ∧
    (evaluate_model model dataloader).1.evalModeSet = true ∧
    (evaluate_model model dataloader).1.gradEnabled = false ∧
    (test_model model dataloader).2 =
      ((test_model model dataloader).1.predictions,
       (test_model model dataloader).1.true_labels) ∧
    (evaluate_model model dataloader).2 = () :=
  ⟨rfl, rfl, rfl, rfl, rfl⟩

/-! ### Claim C6 -/

/-- Unrolling the accumulation loop shared by the two evaluation
functions: it appends, batch by batch in dataloader order, the per-row
argmax indices and the labels. -/
theorem evalLoop_foldl (model : EvalBatch → List (List ℚ)) :
    ∀ (dl : List EvalBatch) (acc : List ℕ × List ℕ),
      dl.foldl (fun acc batches =>
          (acc.1 ++ (model batches).map argmaxIdx,
           acc.2 ++ batches.labels)) acc =
        (acc.1 ++ dl.flatMap (fun b => (model b).map argmaxIdx),
         acc.2 ++ dl.flatMap (fun b => b.labels)) := by
  intro dl
  induction dl with
  | nil => intro acc; simp
  | cons b dl' ih => intro acc; simp [List.flatMap_cons, ih]

/-- Length of a `flatMap`. -/
theorem length_flatMap' {α β : Type} (l : List α) (f : α → List β) :
    (l.flatMap f).length = (l.map (fun x => (f x).length)).sum := by
  induction l with
  | nil => simp
  | cons x l' ih => simp [List.flatMap_cons, ih]

/-- The argmax of a two-element row is 0 or 1. -/
theorem argmaxIdx_lt_two (r : List ℚ) (h : r.length = 2) :
    argmaxIdx r < 2 := by
  match r, h with
  | [x, y], _ =>
    by_cases hxy : x < y <;> simp [argmaxIdx, argmaxFrom, hxy]

/-- **C6.** `test_model` returns a pair `(predictions, true_labels)` with
exactly one entry per example of the dataloader, in dataloader order;
each prediction is the argmax over the model's 2 output logits for that
example (hence 0 or 1); and for each of the three models the returned
prediction list is what the notebook serializes to
`predictions/<X>_preds.pt`. -/
theorem test_model_output (model : EvalBatch → List (List ℚ))
    (dataloader : List EvalBatch)
    (hrows : ∀ b ∈ dataloader, (model b).length = b.labels.length)
    (hcols : ∀ b ∈ dataloader, ∀ r ∈ model b, r.length = 2) :
    (test_model model dataloader).2.1 =
        dataloader.flatMap (fun b => (model b).map argmaxIdx) ∧
    (test_model model dataloader).2.2 =
        dataloader.flatMap (fun b => b.labels) ∧
    (test_model model dataloader).2.1.length =
        (dataloader.map (fun b => b.labels.length)).sum ∧
    (test_model model dataloader).2.2.length =
        (dataloader.map (fun b => b.labels.length)).sum ∧
    (∀ p ∈ (test_model model dataloader).2.1, p < 2) ∧
    ∀ (tbModel elModel : EvalBatch → List (List ℚ))
      (tbTest elTest : List EvalBatch),
      ("predictions/DB_preds.pt", (test_model model dataloader).2.1) ∈
          notebookPredictionSaves model tbModel elModel dataloader tbTest
            elTest ∧
      ("predictions/TB_preds.pt", (test_model tbModel tbTest).2.1) ∈
          notebookPredictionSaves model tbModel elModel dataloader tbTest
            elTest ∧
      ("predictions/EL_preds.pt", (test_model elModel elTest).2.1) ∈
          notebookPredictionSaves model tbModel elModel dataloader tbTest
            elTest := by
  have hpair : (test_model model dataloader).2 =
      (dataloader.flatMap (fun b => (model b).map argmaxIdx),
       dataloader.flatMap (fun b => b.labels)) := by
    simp only [test_model]
    rw [evalLoop_foldl model dataloader ([], [])]
    simp
  rw [hpair]
  refine ⟨rfl, rfl, ?_, ?_, ?_, ?_⟩
  · rw [length_flatMap']
    congr 1
    apply List.map_congr_left
    intro b hb
    simp [hrows b hb]
  · rw [length_flatMap']
  · intro p hp
    rw [List.mem_flatMap] at hp
    obtain ⟨b, hb, hpb⟩ := hp
    rw [List.mem_map] at hpb
    obtain ⟨r, hr, rfl⟩ := hpb
    exact argmaxIdx_lt_two r (hcols b hb r hr)
  · intro tbModel elModel tbTest elTest
    refine ⟨?_, ?_, ?_⟩ <;>
      simp [notebookPredictionSaves, hpair]

/-- Witness for C6 at a concrete model and dataloader. -/
theorem test_model_output_witness :
    ((∀ b ∈ wTestLoader, (wTestModel b).length = b.labels.length) ∧
      (∀ b ∈ wTestLoader, ∀ r ∈ wTestModel b, r.length = 2)) ∧
    ((test_model wTestModel wTestLoader).2.1 =
        wTestLoader.flatMap (fun b => (wTestModel b).map argmaxIdx) ∧
      (test_model wTestModel wTestLoader).2.2 =
        wTestLoader.flatMap (fun b => b.labels) ∧
      (test_model wTestModel wTestLoader).2.1.length =
        (wTestLoader.map (fun b => b.labels.length)).sum ∧
      (test_model wTestModel wTestLoader).2.2.length =
        (wTestLoader.map (fun b => b.labels.length)).sum ∧
      (∀ p ∈ (test_model wTestModel wTestLoader).2.1, p < 2) ∧
      ∀ (tbModel elModel : EvalBatch → List (List ℚ))
        (tbTest elTest : List EvalBatch),
        ("predictions/DB_preds.pt", (test_model wTestModel wTestLoader).2.1) ∈
            notebookPredictionSaves wTestModel tbModel elModel wTestLoader
              tbTest elTest ∧
        ("predictions/TB_preds.pt", (test_model tbModel tbTest).2.1) ∈
            notebookPredictionSaves wTestModel tbModel elModel wTestLoader
              tbTest elTest ∧
        ("predictions/EL_preds.pt", (test_model elModel elTest).2.1) ∈
            notebookPredictionSaves wTestModel tbModel elModel wTestLoader
              tbTest elTest) :=
  ⟨⟨by decide, by decide⟩,
   test_model_output wTestModel wTestLoader (by decide) (by decide)⟩

/-! ### Claim C10 -/

/-- **C10.** For every `CustomDataset`, `__len__` returns the length of
`inputs['input_ids']`, and for every in-range index (with the tokenizer's
aligned tensors and labels), `__getitem__` returns the dictionary with
exactly the keys `input_ids`, `attention_mask`, `labels`, bound to
`inputs['input_ids'][idx]`, `inputs['attention_mask'][idx]` and
`labels[idx]` respectively. -/
theorem customDataset_len_getitem (d : CustomDataset) (idx : ℕ)
    (hmask : d.inputs.attention_mask.length = d.inputs.input_ids.length)
    (hlab : d.labels.length = d.inputs.input_ids.length)
    (hidx : idx < d.len) :
    d.len = d.inputs.input_ids.length ∧
    d.getitem idx = some
      [("input_ids", .ids (d.inputs.input_ids.getD idx [])),
       ("attention_mask", .mask (d.inputs.attention_mask.getD idx [])),
       ("labels", .label (d.labels.getD idx 0))] := by
  refine ⟨rfl, ?_⟩
  have h1 : idx < d.inputs.input_ids.length := hidx
  have h2 : idx < d.inputs.attention_mask.length := by omega
  have h3 : idx < d.labels.length := by omega
  rw [CustomDataset.getitem, List.getElem?_eq_getElem h1,
    List.getElem?_eq_getElem h2, List.getElem?_eq_getElem h3,
    List.getD_eq_getElem _ _ h1, List.getD_eq_getElem _ _ h2,
    List.getD_eq_getElem _ _ h3]

/-- Witness for C10 at a concrete dataset and index. -/
theorem customDataset_len_getitem_witness :
    (wDataset.inputs.attention_mask.length =
        wDataset.inputs.input_ids.length ∧
      wDataset.labels.length = wDataset.inputs.input_ids.length ∧
      1 < wDataset.len) ∧
    (wDataset.len = wDataset.inputs.input_ids.length ∧
      wDataset.getitem 1 = some
        [("input_ids", .ids (wDataset.inputs.input_ids.getD 1 [])),
         ("attention_mask", .mask (wDataset.inputs.attention_mask.getD 1 [])),
         ("labels", .label (wDataset.labels.getD 1 0))]) :=
  ⟨⟨by decide, by decide, by decide⟩,
   customDataset_len_getitem wDataset 1 (by decide) (by decide) (by decide)⟩
